import Mathlib

/-!
# Verification of `.github/scripts/stubs_clippy_post_comment.js`

The script reads a lint report and a pull-request number from disk, truncates the
report at 30000 UTF-16 code units, builds a comment body and posts it with one
`createComment` call, returning the parsed pull-request number.

JavaScript strings are sequences of UTF-16 code units: `length`, `substring`,
`split` and `trim` all work on code units, so a string is modelled as a list of
code units (natural numbers below 65536).
-/

namespace StubsClippy

/-- A JavaScript string: its sequence of UTF-16 code units, each a natural number
below 65536. -/
abbrev JSString := List Nat

/-- The UTF-16 code units of one Unicode scalar value (a surrogate pair above the BMP). -/
def utf16Char (c : Char) : JSString :=
  if c.toNat < 0x10000 then [c.toNat]
  else [0xD800 + (c.toNat - 0x10000) / 0x400, 0xDC00 + (c.toNat - 0x10000) % 0x400]

/-- The UTF-16 code units of a list of Unicode scalar values. -/
def utf16List : List Char → JSString
  | [] => []
  | c :: cs => utf16Char c ++ utf16List cs

/-- The JavaScript string denoted by a source string literal. -/
def utf16 (s : String) : JSString := utf16List s.toList

/-! ## String primitives used by the script -/

/-- The code unit of the line feed, the separator of `split('\n')`. -/
def NEWLINE : Nat := 10

/-- ECMAScript `WhiteSpace` and `LineTerminator` code points, the set stripped by
`String.prototype.trim` and skipped by `parseInt`; all of them lie in the BMP. -/
def isWhiteSpace (c : Nat) : Bool :=
  c = 0x09 || c = 0x0A || c = 0x0B || c = 0x0C || c = 0x0D || c = 0x20 || c = 0xA0 ||
  c = 0x1680 || (0x2000 ≤ c && c ≤ 0x200A) || c = 0x2028 || c = 0x2029 || c = 0x202F ||
  c = 0x205F || c = 0x3000 || c = 0xFEFF

/-- `String.prototype.trimStart`. -/
def trimStart (s : JSString) : JSString := s.dropWhile isWhiteSpace

/-- `String.prototype.trimEnd`. -/
def trimEnd (s : JSString) : JSString := (s.reverse.dropWhile isWhiteSpace).reverse

/-- `String.prototype.trim`. -/
def trim (s : JSString) : JSString := trimEnd (trimStart s)

/-- `ToBoolean` of a string: only the empty string is falsy. -/
def truthy (s : JSString) : Bool := !s.isEmpty

/-- `String.prototype.substring(start, end)`: both indices are clamped to the length
and swapped when out of order. -/
def substring (s : JSString) (start stop : Nat) : JSString :=
  let a := min start s.length
  let b := min stop s.length
  (s.drop (min a b)).take (max a b - min a b)

/-- `String.prototype.split(sep)` for a separator of one code unit: the pieces between
the occurrences of `sep`; the empty string yields one empty piece. -/
def split (sep : Nat) : JSString → List JSString
  | [] => [[]]
  | c :: cs =>
    if c = sep then [] :: split sep cs
    else match split sep cs with
      | [] => [[c]]
      | piece :: rest => (c :: piece) :: rest

/-- Decimal digits of a natural number, most significant first, as code units; the
first argument bounds the number of digits produced. -/
def decimalCore : Nat → Nat → JSString → JSString
  | 0, _, acc => acc
  | fuel + 1, n, acc =>
    if n < 10 then (48 + n) :: acc
    else decimalCore fuel (n / 10) ((48 + n % 10) :: acc)

/-- The decimal numeral of a natural number. -/
def decimal (n : Nat) : JSString := decimalCore (n + 1) n []

/-- `Number::toString` of an integer-valued number, as interpolated by a template
literal. String lengths are below 2^53, so every count the script interpolates is
below 10^21, the range in which the result is the plain decimal numeral. -/
def numberToString (v : Int) : JSString :=
  if v < 0 then 45 :: decimal v.natAbs else decimal v.natAbs

/-! ## The comment body (lines 5-15 of the script) -/

/-- The truncation threshold in code units. -/
def LIMIT : Nat := 30000

/-- The expression `data.split('\n').length - truncated_data.split('\n').length`. -/
def lines_truncated (data : JSString) : Int :=
  ((split NEWLINE data).length : Int) -
    ((split NEWLINE (substring data 0 LIMIT)).length : Int)

/-- The template literal appended after the retained prefix. -/
def truncationNote (n : Int) : JSString :=
  utf16 "\n\n... (truncated " ++ numberToString n ++ utf16 " lines) ...\n"

/-- The truncation step: the value of `data` after the `if (data.length > 30000)` block. -/
def truncate (data : JSString) : JSString :=
  if data.length > LIMIT then
    let truncated_data := substring data 0 LIMIT
    truncated_data ++ truncationNote (lines_truncated data)
  else data

/-- The literal opening the red-flag comment: the header, a newline and the fence line. -/
def WARNING_OPENING : JSString :=
  utf16 "🚩🚩 Stubs clippy found the following red flags for this PR: \n```\n"

/-- The literal closing the red-flag comment. -/
def FENCE_CLOSE : JSString := utf16 "\n```"

/-- The literal posted when there is nothing to report. -/
def SUCCESS_MESSAGE : JSString := utf16 "✅ Stubs clippy found no red flags for this PR!"

/-- The value of `body` for the report text read from disk. -/
def composeBody (report : JSString) : JSString :=
  let data := truncate report
  if truthy (trim data) then WARNING_OPENING ++ data ++ FENCE_CLOSE
  else SUCCESS_MESSAGE

/-! ## `parseInt` (line 16 of the script) -/

/-- The Number values `parseInt` can return: `NaN`, the infinities, negative zero and
the finite integer-valued doubles (`int 0` is positive zero). -/
inductive JSNumber where
  | nan
  | posInf
  | negInf
  | negZero
  | int (v : Int)
  deriving DecidableEq

/-- The value of a code unit as a digit: `0`-`9`, then `a`-`z` or `A`-`Z` for 10 to 35. -/
def digitValue (c : Nat) : Option Nat :=
  if 48 ≤ c ∧ c ≤ 57 then some (c - 48)
  else if 97 ≤ c ∧ c ≤ 122 then some (c - 97 + 10)
  else if 65 ≤ c ∧ c ≤ 90 then some (c - 65 + 10)
  else none

/-- Whether a code unit is a digit of the given radix. -/
def isRadixDigit (R : Nat) (c : Nat) : Bool :=
  match digitValue c with
  | some d => decide (d < R)
  | none => false

/-- The mathematical integer denoted by a string of radix-`R` digits. -/
def mathInt (R : Nat) (z : JSString) : Nat :=
  z.foldl (fun acc c => acc * R + (digitValue c).getD 0) 0

/-- Halving count: the second argument is halved until it is below 2, at most as
often as the first argument allows. -/
def log2Core : Nat → Nat → Nat
  | 0, _ => 0
  | fuel + 1, n => if n < 2 then 0 else log2Core fuel (n / 2) + 1

/-- The binary exponent of a positive natural number: the position of its leading bit. -/
def floorLog2 (n : Nat) : Nat := log2Core n n

/-- The double nearest to a natural number, ties to even; `none` when the rounded value
leaves the finite range, whose largest binary exponent is 1023 (overflow to infinity).
Below 2^53 every integer is exact; above, the value keeps its 53 leading bits. -/
def roundToDouble (n : Nat) : Option Nat :=
  if n < 2 ^ 53 then some n
  else
    let e := floorLog2 n - 52
    let q := n / 2 ^ e
    let r := n % 2 ^ e
    let half := 2 ^ (e - 1)
    let q1 := if half < r ∨ (r = half ∧ q % 2 = 1) then q + 1 else q
    if floorLog2 (q1 * 2 ^ e) ≤ 1023 then some (q1 * 2 ^ e) else none

/-- The Number for `sign × m`, where `negative` tells the sign: steps 15 and 16 of
`parseInt`. -/
def toNumber (negative : Bool) (m : Nat) : JSNumber :=
  if m = 0 then (if negative then .negZero else .int 0)
  else match roundToDouble m with
    | some v => .int (if negative then -(v : Int) else (v : Int))
    | none => if negative then .negInf else .posInf

/-- Step 4 of `parseInt`: the sign is negative when the string starts with `-`. -/
def isNegative (s : JSString) : Bool :=
  match s with
  | 45 :: _ => true
  | _ => false

/-- Step 5 of `parseInt`: a leading `+` or `-` is removed. -/
def stripSign (s : JSString) : JSString :=
  match s with
  | 43 :: rest => rest
  | 45 :: rest => rest
  | _ => s

/-- Step 10 of `parseInt`: whether the string starts with `0x` or `0X`. -/
def startsWithHex (s : JSString) : Bool :=
  match s with
  | 48 :: 120 :: _ => true
  | 48 :: 88 :: _ => true
  | _ => false

/-- The global `parseInt(string)` called without a radix: leading white space is
skipped, one sign is read, a `0x` or `0X` prefix selects radix 16 (otherwise 10), and
the longest run of digits is converted; an empty run gives `NaN`. The digits are
converted exactly and the result is rounded once to a double, as V8 does. -/
def parseInt (input : JSString) : JSNumber :=
  let s := trimStart input
  let negative := isNegative s
  let s := stripSign s
  let R := if startsWithHex s then 16 else 10
  let s := if startsWithHex s then s.drop 2 else s
  let z := s.takeWhile (isRadixDigit R)
  if z.isEmpty then .nan else toNumber negative (mathInt R z)

/-! ## The routine with its effects (lines 1-25 of the script) -/

/-- An error thrown by a file read or by the comment call. -/
structure JSError where
  message : JSString
  deriving DecidableEq

/-- The `context.repo` object supplied by the invoking harness. -/
structure Context where
  owner : JSString
  repo : JSString
  deriving DecidableEq

/-- The argument object of `github.rest.issues.createComment`. -/
structure CommentParams where
  issue_number : JSNumber
  owner : JSString
  repo : JSString
  body : JSString
  deriving DecidableEq

/-- The REST endpoints for issue comments reachable through the `github` client. -/
inductive Endpoint where
  | createComment
  | updateComment
  | deleteComment
  deriving DecidableEq

/-- An observable effect of a run: a file read, a file write or an outbound call. -/
inductive Effect where
  | fileRead (path : JSString)
  | fileWrite (path : JSString) (content : JSString)
  | call (endpoint : Endpoint) (params : CommentParams)
  deriving DecidableEq

/-- The surroundings of a run: what `fs.readFileSync` yields for a path and what the
comment call does with its argument. -/
structure World where
  readFileSync : JSString → Except JSError JSString
  createComment : CommentParams → Except JSError Unit

/-- The result of a run: the effects in order, and the resolved value or the error the
returned promise rejects with. -/
structure Outcome where
  trace : List Effect
  result : Except JSError JSNumber

/-- The path of the report file. -/
def REPORT_PATH : JSString := utf16 "stubs_clippy_errors.txt"

/-- The path of the pull-request number file. -/
def PR_NUMBER_PATH : JSString := utf16 "pr_number.txt"

/-- The exported async function. A failing read throws before anything later runs; a
failing comment call rejects the awaited promise; nothing is caught. The constant
`DIFF_LINE` of the script is never used and has no counterpart here. -/
def postComment (w : World) (context : Context) : Outcome :=
  match w.readFileSync REPORT_PATH with
  | .error e => ⟨[.fileRead REPORT_PATH], .error e⟩
  | .ok data =>
    let body := composeBody data
    match w.readFileSync PR_NUMBER_PATH with
    | .error e => ⟨[.fileRead REPORT_PATH, .fileRead PR_NUMBER_PATH], .error e⟩
    | .ok text =>
      let issue_number := parseInt text
      let params : CommentParams :=
        ⟨issue_number, context.owner, context.repo, body⟩
      let trace := [.fileRead REPORT_PATH, .fileRead PR_NUMBER_PATH,
        .call .createComment params]
      match w.createComment params with
      | .error e => ⟨trace, .error e⟩
      | .ok _ => ⟨trace, .ok issue_number⟩

/-- Whether an effect is an outbound call. -/
def Effect.isCall : Effect → Bool
  | .call _ _ => true
  | _ => false

/-- Whether an effect is a file write. -/
def Effect.isWrite : Effect → Bool
  | .fileWrite _ _ => true
  | _ => false

/-- The outbound calls of a trace, in order. -/
def calls (t : List Effect) : List Effect := t.filter Effect.isCall

/-- The file writes of a trace, in order. -/
def writes (t : List Effect) : List Effect := t.filter Effect.isWrite

/-! ## Auxiliary definitions for the proofs and sample runs -/

/-- The digits of `Nat.digits`, most significant first, as code units. -/
def digitChars (n : Nat) : JSString := (Nat.digits 10 n).reverse.map (fun d => 48 + d)

/-- The argument object the script builds from the two file contents. -/
def paramsFor (context : Context) (data text : JSString) : CommentParams :=
  ⟨parseInt text, context.owner, context.repo, composeBody data⟩

/-- A world holding both files, in which the comment call succeeds. -/
def worldWithFiles (report prNumber : JSString) : World where
  readFileSync path :=
    if path = REPORT_PATH then .ok report
    else if path = PR_NUMBER_PATH then .ok prNumber
    else .error ⟨utf16 "ENOENT"⟩
  createComment _ := .ok ()

/-- A world holding no file. -/
def worldWithoutFiles : World where
  readFileSync _ := .error ⟨utf16 "ENOENT"⟩
  createComment _ := .ok ()

/-- A sample repository context. -/
def sampleContext : Context := ⟨utf16 "python", utf16 "typeshed"⟩

/-! ## Lemmas on the string primitives -/

theorem substring_zero (s : JSString) (n : Nat) : substring s 0 n = s.take n := by
  simp [substring]

theorem split_ne_nil (sep : Nat) (s : JSString) : split sep s ≠ [] := by
  cases s with
  | nil => simp [split]
  | cons c cs =>
    unfold split
    split
    · simp
    · split <;> simp

theorem split_length (sep : Nat) (s : JSString) :
    (split sep s).length = s.count sep + 1 := by
  induction s with
  | nil => simp [split]
  | cons c cs ih =>
    unfold split
    by_cases h : c = sep
    · subst h
      simp [ih]
    · have h2 : ¬ (c == sep) = true := by simpa using h
      rw [if_neg h, List.count_cons, if_neg h2]
      cases hs : split sep cs with
      | nil => exact absurd hs (split_ne_nil sep cs)
      | cons piece rest =>
        rw [hs] at ih
        simpa using ih

theorem count_take_add_drop (c : Nat) (s : JSString) (n : Nat) :
    s.count c = (s.take n).count c + (s.drop n).count c := by
  conv_lhs => rw [← List.take_append_drop n s]
  rw [List.count_append]

theorem lines_truncated_eq (data : JSString) :
    lines_truncated data = ((data.drop LIMIT).count NEWLINE : Nat) := by
  unfold lines_truncated
  rw [substring_zero, split_length, split_length, count_take_add_drop NEWLINE data LIMIT]
  push_cast
  ring

theorem trimStart_ne_nil {s : JSString} {c : Nat} (hc : c ∈ s)
    (hw : isWhiteSpace c = false) : trimStart s ≠ [] := by
  unfold trimStart
  intro h
  rw [List.dropWhile_eq_nil_iff] at h
  have := h c hc
  simp [hw] at this

theorem mem_trimStart {s : JSString} {c : Nat} (hc : c ∈ s)
    (hw : isWhiteSpace c = false) : c ∈ trimStart s := by
  unfold trimStart
  induction s with
  | nil => cases hc
  | cons a as ih =>
    rw [List.dropWhile_cons]
    by_cases ha : isWhiteSpace a = true
    · rw [if_pos ha]
      rcases List.mem_cons.mp hc with h | h
      · subst h; rw [hw] at ha; cases ha
      · exact ih h
    · rw [if_neg ha]; exact hc

theorem trimEnd_ne_nil {s : JSString} {c : Nat} (hc : c ∈ s)
    (hw : isWhiteSpace c = false) : trimEnd s ≠ [] := by
  unfold trimEnd
  intro h
  have h2 : List.dropWhile isWhiteSpace s.reverse = [] := by
    simpa using congrArg List.reverse h
  rw [List.dropWhile_eq_nil_iff] at h2
  have := h2 c (List.mem_reverse.mpr hc)
  simp [hw] at this

/-- A string holding a code unit that is not white space stays non-empty under `trim`. -/
theorem truthy_trim_of_mem {s : JSString} {c : Nat} (hc : c ∈ s)
    (hw : isWhiteSpace c = false) : truthy (trim s) = true := by
  have h := trimEnd_ne_nil (mem_trimStart hc hw) hw
  unfold truthy trim
  cases hs : trimEnd (trimStart s) with
  | nil => exact absurd hs h
  | cons a as => rfl

/-- A string of white space only is emptied by `trim`. -/
theorem trim_eq_nil_of_all {s : JSString} (h : ∀ c ∈ s, isWhiteSpace c = true) :
    trim s = [] := by
  have h1 : trimStart s = [] := by
    unfold trimStart
    rw [List.dropWhile_eq_nil_iff]
    exact h
  simp [trim, h1, trimEnd]

theorem truthy_trim_iff (s : JSString) :
    truthy (trim s) = true ↔ ∃ c ∈ s, isWhiteSpace c = false := by
  constructor
  · intro ht
    by_contra hne
    have hall : ∀ c ∈ s, isWhiteSpace c = true := by
      intro c hc
      by_contra hw
      exact hne ⟨c, hc, by simpa using hw⟩
    rw [trim_eq_nil_of_all hall] at ht
    simp [truthy] at ht
  · rintro ⟨c, hc, hw⟩
    exact truthy_trim_of_mem hc hw

theorem truncate_of_le {data : JSString} (h : data.length ≤ LIMIT) : truncate data = data := by
  unfold truncate
  rw [if_neg (Nat.not_lt.mpr h)]

theorem truncate_of_gt {data : JSString} (h : LIMIT < data.length) :
    truncate data = data.take LIMIT ++ truncationNote ((data.drop LIMIT).count NEWLINE : Nat) := by
  unfold truncate
  rw [if_pos h]
  simp only [substring_zero, lines_truncated_eq]

theorem truncationNote_eq (n : Int) : truncationNote n =
    [10, 10, 46, 46, 46, 32, 40, 116, 114, 117, 110, 99, 97, 116, 101, 100, 32] ++
      numberToString n ++ [32, 108, 105, 110, 101, 115, 41, 32, 46, 46, 46, 10] := by
  unfold truncationNote
  have h1 : utf16 "\n\n... (truncated " =
      [10, 10, 46, 46, 46, 32, 40, 116, 114, 117, 110, 99, 97, 116, 101, 100, 32] := by decide
  have h2 : utf16 " lines) ...\n" = [32, 108, 105, 110, 101, 115, 41, 32, 46, 46, 46, 10] := by
    decide
  rw [h1, h2]

/-- The body of every report longer than the limit is the red-flag form: the note holds
code units that are not white space, so the trimmed text is never empty. -/
theorem composeBody_of_gt {data : JSString} (h : LIMIT < data.length) :
    composeBody data = WARNING_OPENING ++
      (data.take LIMIT ++ truncationNote ((data.drop LIMIT).count NEWLINE : Nat)) ++
      FENCE_CLOSE := by
  unfold composeBody
  simp only [truncate_of_gt h]
  rw [if_pos]
  apply truthy_trim_of_mem (c := 46)
  · rw [truncationNote_eq]; simp
  · decide

theorem composeBody_of_le {data : JSString} (h : data.length ≤ LIMIT) :
    composeBody data =
      if truthy (trim data) then WARNING_OPENING ++ data ++ FENCE_CLOSE else SUCCESS_MESSAGE := by
  unfold composeBody
  simp only [truncate_of_le h]

/-! ## Lemmas on decimal numerals -/

theorem decimalCore_eq (fuel : Nat) : ∀ (n : Nat) (acc : JSString), n < fuel →
    decimalCore fuel n acc = (if n = 0 then [48] else digitChars n) ++ acc := by
  induction fuel with
  | zero => intro n acc h; omega
  | succ fuel ih =>
    intro n acc h
    unfold decimalCore
    by_cases h10 : n < 10
    · rw [if_pos h10]
      by_cases h0 : n = 0
      · subst h0; simp
      · rw [if_neg h0]
        simp [digitChars, Nat.digits_of_lt 10 n h0 h10]
    · rw [if_neg h10]
      have hpos : 0 < n := by omega
      have hdiv : n / 10 < fuel := by omega
      have hdiv0 : n / 10 ≠ 0 := by omega
      rw [ih (n / 10) _ hdiv, if_neg hdiv0, if_neg (by omega : n ≠ 0)]
      have hd : Nat.digits 10 n = n % 10 :: Nat.digits 10 (n / 10) :=
        Nat.digits_def' (by norm_num) hpos
      simp [digitChars, hd]

theorem decimal_eq (n : Nat) : decimal n = if n = 0 then [48] else digitChars n := by
  unfold decimal
  rw [decimalCore_eq (n + 1) n [] (Nat.lt_succ_self n)]
  simp

/-- The numeral of `n` has as many code units as `n` has decimal digits. -/
theorem decimal_length (n : Nat) : (decimal n).length = Nat.log 10 n + 1 := by
  rw [decimal_eq]
  by_cases h0 : n = 0
  · subst h0; simp
  · rw [if_neg h0]
    simp [digitChars, Nat.digits_len 10 n (by norm_num) h0]

theorem decimal_ne_nil (n : Nat) : decimal n ≠ [] := by
  intro h
  have := decimal_length n
  rw [h] at this
  simp at this

theorem decimal_digit {n : Nat} {c : Nat} (hc : c ∈ decimal n) : 48 ≤ c ∧ c ≤ 57 := by
  rw [decimal_eq] at hc
  by_cases h0 : n = 0
  · rw [if_pos h0] at hc
    have hc2 : c = 48 := by simpa using hc
    omega
  · rw [if_neg h0] at hc
    simp only [digitChars, List.mem_map, List.mem_reverse] at hc
    obtain ⟨d, hd, hdc⟩ := hc
    have := Nat.digits_lt_base (by norm_num : 1 < 10) hd
    omega

theorem digitValue_of_digit {c : Nat} (h : 48 ≤ c ∧ c ≤ 57) :
    digitValue c = some (c - 48) := by
  unfold digitValue
  rw [if_pos h]

theorem isRadixDigit_ten (c : Nat) : isRadixDigit 10 c = true ↔ 48 ≤ c ∧ c ≤ 57 := by
  unfold isRadixDigit digitValue
  constructor
  · intro h
    split_ifs at h with h1 h2 h3
    · exact h1
    · simp at h
    · simp at h
  · intro h
    rw [if_pos h]
    have : c - 48 < 10 := by omega
    simpa using this

theorem mathInt_append_singleton (R : Nat) (z : JSString) (c : Nat) :
    mathInt R (z ++ [c]) = mathInt R z * R + (digitValue c).getD 0 := by
  simp [mathInt, List.foldl_append]

theorem mathInt_digitChars_aux (L : List Nat) (hL : ∀ d ∈ L, d < 10) :
    mathInt 10 (L.reverse.map (fun d => 48 + d)) = Nat.ofDigits 10 L := by
  induction L with
  | nil => simp [mathInt]
  | cons d t ih =>
    have hd : d < 10 := hL d (List.mem_cons_self d t)
    have ht : ∀ x ∈ t, x < 10 := fun x hx => hL x (List.mem_cons_of_mem d hx)
    rw [List.reverse_cons, List.map_append, List.map_singleton, mathInt_append_singleton,
      ih ht, digitValue_of_digit (c := 48 + d) (by omega), Nat.ofDigits_cons]
    simp
    ring

/-- Reading back the numeral of `n` in radix 10 gives `n`. -/
theorem mathInt_decimal (n : Nat) : mathInt 10 (decimal n) = n := by
  rw [decimal_eq]
  by_cases h0 : n = 0
  · subst h0
    decide
  · rw [if_neg h0]
    unfold digitChars
    rw [mathInt_digitChars_aux _ (fun d hd => Nat.digits_lt_base (by norm_num) hd),
      Nat.ofDigits_digits]

/-! ## Lemmas on `parseInt` -/

theorem not_digit_of_whiteSpace {c : Nat} (h : isWhiteSpace c = true) :
    ¬ (48 ≤ c ∧ c ≤ 57) ∧ c ≠ 120 ∧ c ≠ 88 ∧ c ≠ 43 ∧ c ≠ 45 := by
  unfold isWhiteSpace at h
  simp only [Bool.or_eq_true, Bool.and_eq_true, decide_eq_true_eq] at h
  omega

theorem dropWhile_append_of_all {p : Nat → Bool} (l r : List Nat) (hl : ∀ x ∈ l, p x = true)
    (hr : ∀ x ∈ r.head?, p x = false) : (l ++ r).dropWhile p = r := by
  induction l with
  | nil =>
    cases r with
    | nil => rfl
    | cons a as =>
      have : p a = false := hr a (by simp)
      simp [List.dropWhile_cons, this]
  | cons a as ih =>
    have ha : p a = true := hl a (List.mem_cons_self a as)
    rw [List.cons_append, List.dropWhile_cons, if_pos ha]
    exact ih (fun x hx => hl x (List.mem_cons_of_mem a hx))

theorem takeWhile_append_of_all {p : Nat → Bool} (l r : List Nat) (hl : ∀ x ∈ l, p x = true)
    (hr : ∀ x ∈ r.head?, p x = false) : (l ++ r).takeWhile p = l := by
  induction l with
  | nil =>
    cases r with
    | nil => rfl
    | cons a as =>
      have : p a = false := hr a (by simp)
      simp [List.takeWhile_cons, this]
  | cons a as ih =>
    have ha : p a = true := hl a (List.mem_cons_self a as)
    rw [List.cons_append, List.takeWhile_cons, if_pos ha]
    rw [ih (fun x hx => hl x (List.mem_cons_of_mem a hx))]

theorem isNegative_cons {d : Nat} (t : JSString) (h : d ≠ 45) : isNegative (d :: t) = false := by
  unfold isNegative
  split
  · simp_all
  · rfl

theorem stripSign_cons {d : Nat} (t : JSString) (h43 : d ≠ 43) (h45 : d ≠ 45) :
    stripSign (d :: t) = d :: t := by
  unfold stripSign
  split <;> simp_all

theorem startsWithHex_cons {d : Nat} (t : JSString) (hx : ∀ c ∈ t.head?, c ≠ 120 ∧ c ≠ 88) :
    startsWithHex (d :: t) = false := by
  unfold startsWithHex
  split
  · rename_i heq
    simp at heq
    have := hx 120 (by simp [heq.2])
    simp at this
  · rename_i heq
    simp at heq
    have := hx 88 (by simp [heq.2])
    simp at this
  · rfl

/-- How `parseInt` treats a string that, after its leading white space, starts with a
decimal digit and carries no `0x` prefix: radix 10, no sign. -/
theorem parseInt_of_digit_start (input : JSString) (d : Nat) (t : JSString)
    (hs : trimStart input = d :: t) (hd : 48 ≤ d ∧ d ≤ 57)
    (hx : ∀ c ∈ t.head?, c ≠ 120 ∧ c ≠ 88) :
    parseInt input = toNumber false (mathInt 10 ((d :: t).takeWhile (isRadixDigit 10))) := by
  have hdig : isRadixDigit 10 d = true := (isRadixDigit_ten d).mpr hd
  unfold parseInt
  simp only [hs]
  rw [isNegative_cons t (by omega), stripSign_cons t (by omega) (by omega),
    startsWithHex_cons t hx]
  simp [List.takeWhile_cons, hdig]

theorem isWhiteSpace_digit {c : Nat} (h : 48 ≤ c ∧ c ≤ 57) : isWhiteSpace c = false := by
  cases hw : isWhiteSpace c with
  | false => rfl
  | true => exact absurd h (not_digit_of_whiteSpace hw).1

/-- A decimal numeral surrounded by white space parses, in radix 10, to its value. -/
theorem parseInt_decimal (ws1 ws2 : JSString) (n : Nat)
    (h1 : ∀ c ∈ ws1, isWhiteSpace c = true) (h2 : ∀ c ∈ ws2, isWhiteSpace c = true) :
    parseInt (ws1 ++ decimal n ++ ws2) = toNumber false n := by
  cases hdec : decimal n with
  | nil => exact absurd hdec (decimal_ne_nil n)
  | cons d z =>
    have hdig : ∀ c ∈ d :: z, 48 ≤ c ∧ c ≤ 57 := by
      intro c hc
      rw [← hdec] at hc
      exact decimal_digit hc
    have hd := hdig d (List.mem_cons_self d z)
    have hs : trimStart (ws1 ++ (d :: z) ++ ws2) = d :: (z ++ ws2) := by
      unfold trimStart
      rw [List.append_assoc]
      exact dropWhile_append_of_all ws1 _ h1 (by
        intro x hx
        have : x = d := by simpa using hx.symm
        subst this
        exact isWhiteSpace_digit hd)
    have hx : ∀ c ∈ (z ++ ws2).head?, c ≠ 120 ∧ c ≠ 88 := by
      intro c hc
      have hmem : c ∈ z ++ ws2 := List.mem_of_mem_head? hc
      rcases List.mem_append.mp hmem with hz | hw
      · have := hdig c (List.mem_cons_of_mem d hz)
        omega
      · have := not_digit_of_whiteSpace (h2 c hw)
        exact ⟨this.2.1, this.2.2.1⟩
    rw [parseInt_of_digit_start _ d (z ++ ws2) hs hd hx]
    have htw : List.takeWhile (isRadixDigit 10) (d :: (z ++ ws2)) = d :: z := by
      rw [← List.cons_append]
      apply takeWhile_append_of_all
      · intro x hx
        exact (isRadixDigit_ten x).mpr (hdig x hx)
      · intro x hx
        have hw := not_digit_of_whiteSpace (h2 x (List.mem_of_mem_head? hx))
        cases hr : isRadixDigit 10 x with
        | false => rfl
        | true => exact absurd ((isRadixDigit_ten x).mp hr) hw.1
    rw [htw, ← hdec, mathInt_decimal]

theorem roundToDouble_of_lt {n : Nat} (h : n < 2 ^ 53) : roundToDouble n = some n := by
  unfold roundToDouble
  rw [if_pos h]

theorem roundToDouble_of_le {n : Nat} (h : n ≤ 2 ^ 53) : roundToDouble n = some n := by
  rcases Nat.lt_or_eq_of_le h with hlt | heq
  · exact roundToDouble_of_lt hlt
  · subst heq
    decide

theorem toNumber_of_le {n : Nat} (h0 : 0 < n) (h : n ≤ 2 ^ 53) :
    toNumber false n = .int (n : Int) := by
  unfold toNumber
  rw [if_neg (by omega), roundToDouble_of_le h]
  simp

theorem log2Core_eq (fuel : Nat) : ∀ n : Nat, n ≤ fuel → log2Core fuel n = Nat.log 2 n := by
  induction fuel with
  | zero =>
    intro n h
    have : n = 0 := by omega
    subst this
    simp [log2Core]
  | succ fuel ih =>
    intro n h
    unfold log2Core
    by_cases h2 : n < 2
    · rw [if_pos h2, Nat.log_of_lt h2]
    · rw [if_neg h2, ih (n / 2) (by omega),
        Nat.log_of_one_lt_of_le (by norm_num) (by omega : 2 ≤ n)]

/-- The fuel of `floorLog2` always suffices: it is the floor of the binary logarithm. -/
theorem floorLog2_eq (n : Nat) : floorLog2 n = Nat.log 2 n :=
  log2Core_eq n n (Nat.le_refl n)

/-- Sample values of `parseInt`: white space around the digits, a sign with a hex prefix,
no digit, negative zero, and rounding to the nearest double above 2^53. -/
theorem parseInt_samples :
    parseInt (utf16 " 123\n") = .int 123 ∧
    parseInt (utf16 "-0x1f") = .int (-31) ∧
    parseInt (utf16 "12px") = .int 12 ∧
    parseInt (utf16 "abc") = .nan ∧
    parseInt (utf16 "") = .nan ∧
    parseInt (utf16 "-0") = .negZero ∧
    parseInt (utf16 "9007199254740992") = .int 9007199254740992 ∧
    parseInt (utf16 "9007199254740993") = .int 9007199254740992 ∧
    parseInt (utf16 "9007199254740995") = .int 9007199254740996 := by
  decide

/-- A string with no digit after its leading white space and optional sign parses to
`NaN`. -/
theorem parseInt_nan (content : JSString)
    (h : ¬ ∃ (ws sgn : JSString) (d : Nat) (rest : JSString),
      content = ws ++ sgn ++ d :: rest ∧ (∀ c ∈ ws, isWhiteSpace c = true) ∧
      (sgn = [] ∨ sgn = [43] ∨ sgn = [45]) ∧ 48 ≤ d ∧ d ≤ 57) :
    parseInt content = .nan := by
  have hsplit : content = content.takeWhile isWhiteSpace ++ trimStart content := by
    unfold trimStart
    exact (List.takeWhile_append_dropWhile isWhiteSpace content).symm
  have hws : ∀ c ∈ content.takeWhile isWhiteSpace, isWhiteSpace c = true :=
    fun c hc => List.mem_takeWhile_imp hc
  -- the string left after the sign starts with no digit
  have key : ∀ (d : Nat) (rest : JSString), stripSign (trimStart content) = d :: rest →
      ¬ (48 ≤ d ∧ d ≤ 57) := by
    intro d rest hst hd
    apply h
    unfold stripSign at hst
    split at hst
    · rename_i r heq
      refine ⟨_, [43], d, rest, ?_, hws, Or.inr (Or.inl rfl), hd.1, hd.2⟩
      rw [List.append_assoc, List.singleton_append, ← hst, ← heq]
      exact hsplit
    · rename_i r heq
      refine ⟨_, [45], d, rest, ?_, hws, Or.inr (Or.inr rfl), hd.1, hd.2⟩
      rw [List.append_assoc, List.singleton_append, ← hst, ← heq]
      exact hsplit
    · refine ⟨_, [], d, rest, ?_, hws, Or.inl rfl, hd.1, hd.2⟩
      rw [List.append_nil, ← hst]
      exact hsplit
  unfold parseInt
  simp only
  cases hst : stripSign (trimStart content) with
  | nil => simp [startsWithHex]
  | cons d rest =>
    have hd := key d rest hst
    have h48 : d ≠ 48 := by omega
    have hhex : startsWithHex (d :: rest) = false := by
      unfold startsWithHex
      split
      · rename_i heq
        exact absurd (List.cons.inj heq).1 h48
      · rename_i heq
        exact absurd (List.cons.inj heq).1 h48
      · rfl
    have hdig : isRadixDigit 10 d = false := by
      cases hr : isRadixDigit 10 d with
      | false => rfl
      | true => exact absurd ((isRadixDigit_ten d).mp hr) hd
    simp [hhex, List.takeWhile_cons, hdig]

/-! ## Further lemmas on the comment body -/

theorem numberToString_natCast (n : Nat) : numberToString (n : Int) = decimal n := by
  unfold numberToString
  rw [if_neg (by omega)]
  simp

theorem split_length_replicate (sep c n : Nat) (h : c ≠ sep) :
    (split sep (List.replicate n c)).length = 1 := by
  rw [split_length, List.count_eq_zero_of_not_mem]
  intro hm
  exact h (List.eq_of_mem_replicate hm).symm

theorem drop_replicate_append (n m c : Nat) (l : List Nat) :
    (List.replicate n c ++ l).drop (n + m) = l.drop m := by
  induction n with
  | zero => simp
  | succ k ih =>
    rw [List.replicate_succ, List.cons_append, Nat.add_right_comm, List.drop_succ_cons]
    exact ih

theorem take_replicate_append (n c : Nat) (l : List Nat) :
    (List.replicate n c ++ l).take n = List.replicate n c := by
  induction n with
  | zero => simp
  | succ k ih =>
    rw [List.replicate_succ, List.cons_append, List.take_succ_cons, ih]

theorem count_drop_le (data : JSString) (k c : Nat) :
    (data.drop k).count c ≤ data.length - k := by
  calc (data.drop k).count c ≤ (data.drop k).length := List.count_le_length _ _
    _ = data.length - k := List.length_drop k data

theorem truncationNote_length (n : Nat) :
    (truncationNote (n : Int)).length = 29 + (decimal n).length := by
  rw [truncationNote_eq, numberToString_natCast]
  simp only [List.length_append, List.length_cons, List.length_nil]
  omega

theorem WARNING_OPENING_length : WARNING_OPENING.length = 66 := by decide

theorem FENCE_CLOSE_length : FENCE_CLOSE.length = 4 := by decide

theorem SUCCESS_MESSAGE_length : SUCCESS_MESSAGE.length = 46 := by decide

theorem composeBody_length_of_gt {data : JSString} (h : LIMIT < data.length) :
    (composeBody data).length = 30099 + (decimal ((data.drop LIMIT).count NEWLINE)).length := by
  rw [composeBody_of_gt h]
  simp only [List.length_append, truncationNote_length, WARNING_OPENING_length,
    FENCE_CLOSE_length, List.length_take]
  have : min LIMIT data.length = 30000 := by
    rw [Nat.min_eq_left (Nat.le_of_lt h)]; rfl
  omega

theorem composeBody_length_of_le {data : JSString} (h : data.length ≤ LIMIT) :
    (composeBody data).length ≤ 30070 := by
  rw [composeBody_of_le h]
  have hl : LIMIT = 30000 := rfl
  split
  · simp only [List.length_append, WARNING_OPENING_length, FENCE_CLOSE_length]
    omega
  · rw [SUCCESS_MESSAGE_length]
    omega


/-! ## Lemmas on the routine -/

theorem postComment_of_report_error (w : World) (context : Context) (e : JSError)
    (hr : w.readFileSync REPORT_PATH = .error e) :
    postComment w context = ⟨[.fileRead REPORT_PATH], .error e⟩ := by
  unfold postComment
  simp only [hr]

theorem postComment_of_number_error (w : World) (context : Context) (data : JSString)
    (e : JSError) (hr : w.readFileSync REPORT_PATH = .ok data)
    (hp : w.readFileSync PR_NUMBER_PATH = .error e) :
    postComment w context =
      ⟨[.fileRead REPORT_PATH, .fileRead PR_NUMBER_PATH], .error e⟩ := by
  unfold postComment
  simp only [hr, hp]

theorem postComment_trace (w : World) (context : Context) (data text : JSString)
    (hr : w.readFileSync REPORT_PATH = .ok data)
    (hp : w.readFileSync PR_NUMBER_PATH = .ok text) :
    (postComment w context).trace =
      [.fileRead REPORT_PATH, .fileRead PR_NUMBER_PATH,
        .call .createComment (paramsFor context data text)] := by
  unfold postComment paramsFor
  simp only [hr, hp]
  split <;> rfl

theorem postComment_result (w : World) (context : Context) (data text : JSString)
    (hr : w.readFileSync REPORT_PATH = .ok data)
    (hp : w.readFileSync PR_NUMBER_PATH = .ok text) :
    (postComment w context).result =
      match w.createComment (paramsFor context data text) with
      | .error e => .error e
      | .ok _ => .ok (parseInt text) := by
  unfold postComment paramsFor
  simp only [hr, hp]
  split <;> rfl

theorem calls_of_trace (p : CommentParams) :
    calls [.fileRead REPORT_PATH, .fileRead PR_NUMBER_PATH, .call .createComment p] =
      [.call .createComment p] := rfl

theorem writes_of_trace (p : CommentParams) :
    writes [.fileRead REPORT_PATH, .fileRead PR_NUMBER_PATH, .call .createComment p] = [] :=
  rfl

theorem REPORT_PATH_ne_PR_NUMBER_PATH : PR_NUMBER_PATH ≠ REPORT_PATH := by decide

theorem worldWithFiles_report (report prNumber : JSString) :
    (worldWithFiles report prNumber).readFileSync REPORT_PATH = .ok report := by
  simp [worldWithFiles]

theorem worldWithFiles_number (report prNumber : JSString) :
    (worldWithFiles report prNumber).readFileSync PR_NUMBER_PATH = .ok prNumber := by
  simp [worldWithFiles, REPORT_PATH_ne_PR_NUMBER_PATH]

/-! ## The claims on the comment body -/

/-- C1: for every report text longer than 30000 code units the body is the warning
header, the fence opening, exactly the first 30000 code units, the truncation note (a
blank line, `... (truncated N lines) ...` with `N` in decimal, a newline) and the closing
fence, where `N` is the line count of the text minus the line count of the prefix. -/
theorem C1_body_of_long_report (data : JSString) (h : 30000 < data.length) :
    (split 10 (data.take 30000)).length ≤ (split 10 data).length ∧
    composeBody data =
      utf16 "🚩🚩 Stubs clippy found the following red flags for this PR: " ++ utf16 "\n" ++
        utf16 "```\n" ++ data.take 30000 ++
        (utf16 "\n\n" ++ utf16 "... (truncated " ++
          decimal ((split 10 data).length - (split 10 (data.take 30000)).length) ++
          utf16 " lines) ..." ++ utf16 "\n") ++
        utf16 "\n```" := by
  have hcount : (split 10 data).length - (split 10 (data.take 30000)).length =
      (data.drop 30000).count 10 := by
    rw [split_length, split_length, count_take_add_drop 10 data 30000]
    omega
  constructor
  · rw [split_length, split_length, count_take_add_drop 10 data 30000]
    omega
  · rw [hcount, composeBody_of_gt h, truncationNote_eq, numberToString_natCast]
    have e1 : WARNING_OPENING =
        utf16 "🚩🚩 Stubs clippy found the following red flags for this PR: " ++ utf16 "\n" ++
          utf16 "```\n" := by decide
    have e2 : utf16 "\n\n" ++ utf16 "... (truncated " =
        [10, 10, 46, 46, 46, 32, 40, 116, 114, 117, 110, 99, 97, 116, 101, 100, 32] := by decide
    have e3 : ∀ t : JSString, utf16 " lines) ..." ++ (utf16 "\n" ++ t) =
        [32, 108, 105, 110, 101, 115, 41, 32, 46, 46, 46, 10] ++ t := by
      intro t
      have : utf16 " lines) ..." ++ utf16 "\n" =
          [32, 108, 105, 110, 101, 115, 41, 32, 46, 46, 46, 10] := by decide
      rw [← List.append_assoc, this]
    rw [e1, e2]
    simp only [List.append_assoc, LIMIT, NEWLINE, FENCE_CLOSE]
    rw [e3]

/-- C1, at 40000 `x` without a newline: 30000 `x` are kept and the note reports 0 lines. -/
theorem C1_body_of_long_report_witness :
    30000 < (List.replicate 40000 120).length ∧
    composeBody (List.replicate 40000 120) =
      utf16 "🚩🚩 Stubs clippy found the following red flags for this PR: \n```\n" ++
        List.replicate 30000 120 ++ utf16 "\n\n... (truncated 0 lines) ...\n" ++
        utf16 "\n```" := by
  have hlen : 30000 < (List.replicate 40000 120).length := by
    rw [List.length_replicate]; decide
  refine ⟨hlen, ?_⟩
  have h := (C1_body_of_long_report (List.replicate 40000 120) hlen).2
  have ht : (List.replicate 40000 120).take 30000 = List.replicate 30000 120 := by
    rw [List.take_replicate]; rfl
  rw [ht, split_length_replicate 10 120 40000 (by decide),
    split_length_replicate 10 120 30000 (by decide)] at h
  rw [h]
  have e1 : utf16 "🚩🚩 Stubs clippy found the following red flags for this PR: " ++ utf16 "\n" ++
      utf16 "```\n" =
      utf16 "🚩🚩 Stubs clippy found the following red flags for this PR: \n```\n" := by decide
  have e2 : utf16 "\n\n" ++ utf16 "... (truncated " ++ decimal (1 - 1) ++ utf16 " lines) ..." ++
      utf16 "\n" = utf16 "\n\n... (truncated 0 lines) ...\n" := by decide
  rw [e1, e2]

/-- C2: for every report text of at most 30000 code units that is not empty after
trimming, the body is the warning header, a newline, the fence opening line, the text
itself untrimmed, a newline and the fence close. -/
theorem C2_body_of_short_report (data : JSString) (hlen : data.length ≤ 30000)
    (hne : trim data ≠ []) :
    composeBody data =
      utf16 "🚩🚩 Stubs clippy found the following red flags for this PR: " ++ utf16 "\n" ++
        utf16 "```\n" ++ data ++ utf16 "\n" ++ utf16 "```" := by
  rw [composeBody_of_le hlen]
  have ht : truthy (trim data) = true := by
    unfold truthy
    cases hs : trim data with
    | nil => exact absurd hs hne
    | cons a as => rfl
  rw [if_pos ht]
  have e1 : WARNING_OPENING =
      utf16 "🚩🚩 Stubs clippy found the following red flags for this PR: " ++ utf16 "\n" ++
        utf16 "```\n" := by decide
  have e2 : FENCE_CLOSE = utf16 "\n" ++ utf16 "```" := by decide
  rw [e1, e2]
  simp only [List.append_assoc]

/-- C2, at the 11 code units of `error: foo` and a newline. -/
theorem C2_body_of_short_report_witness :
    (utf16 "error: foo\n").length = 11 ∧
    composeBody (utf16 "error: foo\n") =
      utf16 "🚩🚩 Stubs clippy found the following red flags for this PR: " ++
        utf16 "\n```\nerror: foo\n\n```" :=
  ⟨by decide,
    (C2_body_of_short_report (utf16 "error: foo\n") (by decide) (by decide)).trans (by decide)⟩

/-- C3 fails as stated: 30001 spaces are white space only, yet the note appended by the
truncation makes the body the red-flag form, not the success message. -/
theorem C3_counterexample :
    (∀ c ∈ List.replicate 30001 32, isWhiteSpace c = true) ∧
    composeBody (List.replicate 30001 32) ≠
      utf16 "✅ Stubs clippy found no red flags for this PR!" := by
  constructor
  · intro c hc
    rw [List.eq_of_mem_replicate hc]
    decide
  · have hlen : LIMIT < (List.replicate 30001 32).length := by
      rw [List.length_replicate]; decide
    rw [composeBody_of_gt hlen]
    intro h
    have hh := congrArg List.head? h
    have e1 : WARNING_OPENING = 55357 :: WARNING_OPENING.tail := by decide
    have e2 : utf16 "✅ Stubs clippy found no red flags for this PR!" =
        9989 :: (utf16 "✅ Stubs clippy found no red flags for this PR!").tail := by decide
    rw [e1, e2, List.append_assoc, List.cons_append] at hh
    simp only [List.head?_cons] at hh
    exact absurd hh (by decide)

/-- C3, amended: for every report text of at most 30000 code units that is empty or
white space only, the body is exactly the success message. -/
theorem C3_success_of_blank_report (data : JSString) (hlen : data.length ≤ 30000)
    (hws : ∀ c ∈ data, isWhiteSpace c = true) :
    composeBody data = utf16 "✅ Stubs clippy found no red flags for this PR!" := by
  rw [composeBody_of_le hlen, trim_eq_nil_of_all hws]
  rfl

/-- C3 amended, at three spaces, a newline and two spaces. -/
theorem C3_success_of_blank_report_witness :
    (utf16 "   \n  ").length ≤ 30000 ∧ (∀ c ∈ utf16 "   \n  ", isWhiteSpace c = true) ∧
    composeBody (utf16 "   \n  ") = utf16 "✅ Stubs clippy found no red flags for this PR!" :=
  ⟨by decide, by decide,
    C3_success_of_blank_report (utf16 "   \n  ") (by decide) (by decide)⟩

/-- C4 fails as stated: a report of one newline is within the limit, but its body is the
success message, which does not contain the newline. -/
theorem C4_counterexample :
    (utf16 "\n").length ≤ 30000 ∧ ¬ (utf16 "\n" <:+: composeBody (utf16 "\n")) := by
  refine ⟨by decide, ?_⟩
  intro h
  have hmem : 10 ∈ composeBody (utf16 "\n") := h.subset (by decide)
  exact absurd hmem (by decide)

/-- C4, amended: for every report text of at most 30000 code units the truncation step
leaves the text unchanged, appending no note, and when the text is not empty after
trimming the body contains it verbatim as a contiguous substring. -/
theorem C4_short_report_kept (data : JSString) (hlen : data.length ≤ 30000) :
    truncate data = data ∧ (trim data ≠ [] → data <:+: composeBody data) := by
  refine ⟨truncate_of_le hlen, ?_⟩
  intro hne
  rw [composeBody_of_le hlen]
  have ht : truthy (trim data) = true := by
    unfold truthy
    cases hs : trim data with
    | nil => exact absurd hs hne
    | cons a as => rfl
  rw [if_pos ht]
  exact ⟨WARNING_OPENING, FENCE_CLOSE, rfl⟩

/-- C4 amended, at `error: foo` and a newline. -/
theorem C4_short_report_kept_witness :
    (utf16 "error: foo\n").length ≤ 30000 ∧ trim (utf16 "error: foo\n") ≠ [] ∧
    truncate (utf16 "error: foo\n") = utf16 "error: foo\n" ∧
    utf16 "error: foo\n" <:+: composeBody (utf16 "error: foo\n") :=
  ⟨by decide, by decide,
    (C4_short_report_kept (utf16 "error: foo\n") (by decide)).1,
    (C4_short_report_kept (utf16 "error: foo\n") (by decide)).2 (by decide)⟩

/-- C9: for every report text longer than 30000 code units the reported count, the lines
of the text minus the lines of its 30000-unit prefix, is the number of newlines at
positions 30000 and beyond; so it is not negative, and the text before the cutoff,
a cut line included, adds nothing to it. -/
theorem C9_dropped_line_count (data : JSString) (h : 30000 < data.length) :
    lines_truncated data = (((data.drop 30000).count 10 : Nat) : Int) ∧
    0 ≤ lines_truncated data ∧
    truncate data = data.take 30000 ++ truncationNote (lines_truncated data) ∧
    ∀ other : JSString, other.length = 30000 →
      lines_truncated (other ++ data.drop 30000) = lines_truncated data := by
  have h1 : lines_truncated data = (((data.drop 30000).count 10 : Nat) : Int) :=
    lines_truncated_eq data
  refine ⟨h1, ?_, ?_, ?_⟩
  · rw [h1]
    exact Int.ofNat_nonneg _
  · rw [h1]
    exact truncate_of_gt h
  · intro other ho
    rw [h1, lines_truncated_eq]
    have : (other ++ data.drop 30000).drop LIMIT = data.drop 30000 := by
      have hl : LIMIT = other.length := ho.symm
      rw [hl, List.drop_left]
    rw [this]
    rfl

/-- C9, at 29999 `x` followed by `ab`, a newline and `cd`: the cutoff falls between `a`
and `b`, one newline lies beyond it, and the count is 1. -/
theorem C9_dropped_line_count_witness :
    30000 < (List.replicate 29999 120 ++ utf16 "ab\ncd").length ∧
    (List.replicate 29999 120 ++ utf16 "ab\ncd").take 30000 =
      List.replicate 29999 120 ++ utf16 "a" ∧
    lines_truncated (List.replicate 29999 120 ++ utf16 "ab\ncd") = 1 := by
  have hlen : 30000 < (List.replicate 29999 120 ++ utf16 "ab\ncd").length := by
    rw [List.length_append, List.length_replicate]; decide
  have hd : (List.replicate 29999 120 ++ utf16 "ab\ncd").drop 30000 = utf16 "b\ncd" := by
    rw [show (30000 : Nat) = 29999 + 1 from rfl, drop_replicate_append]
    decide
  have ht : (List.replicate 29999 120 ++ utf16 "ab\ncd").take 30000 =
      List.replicate 29999 120 ++ utf16 "a" := by
    have e : utf16 "ab\ncd" = utf16 "a" ++ utf16 "b\ncd" := by decide
    have hl : (30000 : Nat) = (List.replicate 29999 120 ++ utf16 "a").length := by
      rw [List.length_append, List.length_replicate]; decide
    rw [e, ← List.append_assoc, hl, List.take_left]
  refine ⟨hlen, ht, ?_⟩
  rw [(C9_dropped_line_count _ hlen).1, hd]
  decide

/-- C10: the body of every report text has at most 30100 + d code units, where d is the
number of decimal digits of the dropped-line count N and 0 without truncation; N is at
most the length minus 30000, so d is at most one more than the decimal logarithm of the
length, and for any text shorter than 10^100 the body stays below 65536. -/
theorem C10_body_length_bound (data : JSString) :
    (composeBody data).length ≤ 30100 +
      (if 30000 < data.length then (decimal (lines_truncated data).toNat).length else 0) ∧
    (decimal (lines_truncated data).toNat).length =
      Nat.log 10 (lines_truncated data).toNat + 1 ∧
    (30000 < data.length → (lines_truncated data).toNat ≤ data.length - 30000) ∧
    (composeBody data).length ≤ 30101 + Nat.log 10 data.length ∧
    (data.length < 10 ^ 100 → (composeBody data).length < 65536) := by
  have hN : (lines_truncated data).toNat = (data.drop 30000).count 10 := by
    rw [lines_truncated_eq]
    rfl
  have hle : (data.drop 30000).count 10 ≤ data.length - 30000 := count_drop_le data 30000 10
  have hlog : Nat.log 10 ((data.drop 30000).count 10) ≤ Nat.log 10 data.length :=
    Nat.log_mono_right (by omega)
  have hbody : (composeBody data).length ≤ 30100 +
      (if 30000 < data.length then (decimal (lines_truncated data).toNat).length else 0) := by
    by_cases h : 30000 < data.length
    · rw [if_pos h, hN, composeBody_length_of_gt h]
      have : NEWLINE = 10 := rfl
      have : LIMIT = 30000 := rfl
      simp only [NEWLINE, LIMIT]
      omega
    · rw [if_neg h]
      have hl : data.length ≤ LIMIT := by
        have : LIMIT = 30000 := rfl
        omega
      have := composeBody_length_of_le hl
      omega
  have hlen2 : (composeBody data).length ≤ 30101 + Nat.log 10 data.length := by
    by_cases h : 30000 < data.length
    · rw [if_pos h, hN, decimal_length] at hbody
      omega
    · rw [if_neg h] at hbody
      omega
  refine ⟨hbody, decimal_length _, ?_, hlen2, ?_⟩
  · intro _
    rw [hN]
    exact hle
  · intro hsmall
    by_cases h0 : data.length = 0
    · rw [h0] at hlen2
      simp at hlen2
      omega
    · have := Nat.log_lt_of_lt_pow h0 hsmall
      omega

/-- C10, at 40000 `x`: the body has 30100 code units, the bound with one digit. -/
theorem C10_body_length_bound_witness :
    (List.replicate 40000 120).length < 10 ^ 100 ∧
    (composeBody (List.replicate 40000 120)).length < 65536 := by
  have hlen : (List.replicate 40000 120).length < 10 ^ 100 := by
    rw [List.length_replicate]; decide
  exact ⟨hlen, (C10_body_length_bound (List.replicate 40000 120)).2.2.2.2 hlen⟩

/-! ## The claims on the routine -/

/-- C5 fails as stated: the file content `9007199254740993` is the numeral of 2^53 + 1,
which no double holds; `parseInt` rounds it to 2^53 and the routine returns that. -/
theorem C5_counterexample :
    utf16 "9007199254740993" = decimal 9007199254740993 ∧
    (postComment (worldWithFiles (utf16 "error: foo\n") (utf16 "9007199254740993"))
      sampleContext).result = .ok (.int 9007199254740992) ∧
    (JSNumber.int 9007199254740992) ≠ .int 9007199254740993 := by
  refine ⟨by decide, ?_, by decide⟩
  rw [postComment_result _ _ _ _ (worldWithFiles_report _ _) (worldWithFiles_number _ _)]
  have h : parseInt (utf16 "9007199254740993") = .int 9007199254740992 := by decide
  rw [h]
  rfl

/-- C5, amended: when the number file holds the decimal numeral of a positive integer n
of at most 2^53, with white space allowed before and after it, `parseInt` yields n, the
one comment call carries n as `issue_number`, and a run that returns, returns n,
whatever the report text is. -/
theorem C5_returns_parsed_number (w : World) (context : Context) (data ws1 ws2 : JSString)
    (n : Nat) (hn0 : 0 < n) (hn : n ≤ 2 ^ 53)
    (h1 : ∀ c ∈ ws1, isWhiteSpace c = true) (h2 : ∀ c ∈ ws2, isWhiteSpace c = true)
    (hr : w.readFileSync REPORT_PATH = .ok data)
    (hp : w.readFileSync PR_NUMBER_PATH = .ok (ws1 ++ decimal n ++ ws2)) :
    parseInt (ws1 ++ decimal n ++ ws2) = .int (n : Int) ∧
    calls (postComment w context).trace =
      [.call .createComment ⟨.int (n : Int), context.owner, context.repo, composeBody data⟩] ∧
    (∀ v, (postComment w context).result = .ok v → v = .int (n : Int)) ∧
    (w.createComment ⟨.int (n : Int), context.owner, context.repo, composeBody data⟩ = .ok () →
      (postComment w context).result = .ok (.int (n : Int))) := by
  have hparse : parseInt (ws1 ++ decimal n ++ ws2) = .int (n : Int) := by
    rw [parseInt_decimal ws1 ws2 n h1 h2, toNumber_of_le hn0 hn]
  have hparams : paramsFor context data (ws1 ++ decimal n ++ ws2) =
      ⟨.int (n : Int), context.owner, context.repo, composeBody data⟩ := by
    unfold paramsFor
    rw [hparse]
  refine ⟨hparse, ?_, ?_, ?_⟩
  · rw [postComment_trace w context data _ hr hp, calls_of_trace, hparams]
  · intro v hv
    rw [postComment_result w context data _ hr hp, hparse] at hv
    split at hv
    · cases hv
    · cases hv
      rfl
  · intro hc
    rw [postComment_result w context data _ hr hp, hparams, hc, hparse]

/-- C5 amended, at the number file content ` 123` followed by a newline. -/
theorem C5_returns_parsed_number_witness :
    (postComment (worldWithFiles (utf16 "error: foo\n") (utf16 " 123\n"))
      sampleContext).result = .ok (.int 123) := by
  have e : utf16 " 123\n" = utf16 " " ++ decimal 123 ++ utf16 "\n" := by decide
  rw [e]
  exact (C5_returns_parsed_number (worldWithFiles (utf16 "error: foo\n")
    (utf16 " " ++ decimal 123 ++ utf16 "\n")) sampleContext (utf16 "error: foo\n")
    (utf16 " ") (utf16 "\n") 123 (by decide) (by decide) (by decide) (by decide)
    (worldWithFiles_report _ _) (worldWithFiles_number _ _)).2.2.2 rfl

/-- C6: in every run in which both reads and the comment call succeed, the effects are
the two reads and exactly one outbound call, `createComment`, with the owner and the
repository of the context, the parsed number as `issue_number` and the composed body as
`body`; there is no file write. -/
theorem C6_one_createComment_call (w : World) (context : Context) (data text : JSString)
    (v : JSNumber)
    (hr : w.readFileSync REPORT_PATH = .ok data)
    (hp : w.readFileSync PR_NUMBER_PATH = .ok text)
    (hok : (postComment w context).result = .ok v) :
    (postComment w context).trace =
      [.fileRead REPORT_PATH, .fileRead PR_NUMBER_PATH,
        .call .createComment ⟨parseInt text, context.owner, context.repo, composeBody data⟩] ∧
    calls (postComment w context).trace =
      [.call .createComment ⟨parseInt text, context.owner, context.repo, composeBody data⟩] ∧
    writes (postComment w context).trace = [] ∧
    w.createComment ⟨parseInt text, context.owner, context.repo, composeBody data⟩ = .ok () := by
  have ht := postComment_trace w context data text hr hp
  refine ⟨ht, ?_, ?_, ?_⟩
  · rw [ht]; rfl
  · rw [ht]; rfl
  · rw [postComment_result w context data text hr hp] at hok
    unfold paramsFor at hok
    split at hok
    · cases hok
    · rename_i u hu
      rw [hu]

/-- C6, at a world holding both files in which the comment call succeeds. -/
theorem C6_one_createComment_call_witness :
    calls (postComment (worldWithFiles (utf16 "error: foo\n") (utf16 "123\n"))
      sampleContext).trace =
      [.call .createComment ⟨.int 123, utf16 "python", utf16 "typeshed",
        composeBody (utf16 "error: foo\n")⟩] := by
  have hok : (postComment (worldWithFiles (utf16 "error: foo\n") (utf16 "123\n"))
      sampleContext).result = .ok (parseInt (utf16 "123\n")) := by
    rw [postComment_result _ _ _ _ (worldWithFiles_report _ _) (worldWithFiles_number _ _)]
    rfl
  have h := (C6_one_createComment_call (worldWithFiles (utf16 "error: foo\n") (utf16 "123\n"))
    sampleContext (utf16 "error: foo\n") (utf16 "123\n") _
    (worldWithFiles_report _ _) (worldWithFiles_number _ _) hok).2.1
  have hparse : parseInt (utf16 "123\n") = .int 123 := by decide
  rw [hparse] at h
  exact h

/-- C7: the routine returns a number only when both reads and the comment call
succeeded; a failing report read, a failing number read after a good report read, and
a failing comment call after two good reads each make the run fail with that error;
after a failing read no comment call is made. -/
theorem C7_errors_propagate (w : World) (context : Context) :
    (∀ v, (postComment w context).result = .ok v →
      ∃ data text, w.readFileSync REPORT_PATH = .ok data ∧
        w.readFileSync PR_NUMBER_PATH = .ok text ∧
        w.createComment ⟨parseInt text, context.owner, context.repo, composeBody data⟩ =
          .ok () ∧
        v = parseInt text) ∧
    (∀ e, w.readFileSync REPORT_PATH = .error e →
      (postComment w context).result = .error e ∧
      calls (postComment w context).trace = []) ∧
    (∀ data e, w.readFileSync REPORT_PATH = .ok data →
      w.readFileSync PR_NUMBER_PATH = .error e →
      (postComment w context).result = .error e ∧
      calls (postComment w context).trace = []) ∧
    (∀ data text e, w.readFileSync REPORT_PATH = .ok data →
      w.readFileSync PR_NUMBER_PATH = .ok text →
      w.createComment ⟨parseInt text, context.owner, context.repo, composeBody data⟩ =
        .error e →
      (postComment w context).result = .error e) := by
  refine ⟨?_, ?_, ?_, ?_⟩
  · intro v hv
    cases hr : w.readFileSync REPORT_PATH with
    | error e =>
      rw [postComment_of_report_error w context e hr] at hv
      cases hv
    | ok data =>
      cases hp : w.readFileSync PR_NUMBER_PATH with
      | error e =>
        rw [postComment_of_number_error w context data e hr hp] at hv
        cases hv
      | ok text =>
        rw [postComment_result w context data text hr hp] at hv
        unfold paramsFor at hv
        split at hv
        · cases hv
        · rename_i u hu
          cases hv
          exact ⟨data, text, rfl, rfl, hu, rfl⟩
  · intro e hr
    rw [postComment_of_report_error w context e hr]
    exact ⟨rfl, rfl⟩
  · intro data e hr hp
    rw [postComment_of_number_error w context data e hr hp]
    exact ⟨rfl, rfl⟩
  · intro data text e hr hp hc
    rw [postComment_result w context data text hr hp]
    unfold paramsFor
    rw [hc]

/-- C7, at a world holding no file: the run fails with the read error, without a call. -/
theorem C7_errors_propagate_witness :
    (postComment worldWithoutFiles sampleContext).result = .error ⟨utf16 "ENOENT"⟩ ∧
    calls (postComment worldWithoutFiles sampleContext).trace = [] :=
  (C7_errors_propagate worldWithoutFiles sampleContext).2.1 ⟨utf16 "ENOENT"⟩ rfl

/-- C8: when the number file content has no digit after its leading white space and
optional sign, `parseInt` yields `NaN` without an error; the comment call is still made
once, with `NaN` as `issue_number` and the body composed from the report text; the run
returns `NaN` when that call succeeds, and fails only with an error of that call. -/
theorem C8_nan_passes_through (w : World) (context : Context) (data text : JSString)
    (hr : w.readFileSync REPORT_PATH = .ok data)
    (hp : w.readFileSync PR_NUMBER_PATH = .ok text)
    (hnd : ¬ ∃ (ws sgn : JSString) (d : Nat) (rest : JSString),
      text = ws ++ sgn ++ d :: rest ∧ (∀ c ∈ ws, isWhiteSpace c = true) ∧
      (sgn = [] ∨ sgn = [43] ∨ sgn = [45]) ∧ 48 ≤ d ∧ d ≤ 57) :
    parseInt text = .nan ∧
    calls (postComment w context).trace =
      [.call .createComment ⟨.nan, context.owner, context.repo, composeBody data⟩] ∧
    (w.createComment ⟨.nan, context.owner, context.repo, composeBody data⟩ = .ok () →
      (postComment w context).result = .ok .nan) ∧
    (∀ e, (postComment w context).result = .error e →
      w.createComment ⟨.nan, context.owner, context.repo, composeBody data⟩ = .error e) := by
  have hparse : parseInt text = .nan := parseInt_nan text hnd
  have hparams : paramsFor context data text =
      ⟨.nan, context.owner, context.repo, composeBody data⟩ := by
    unfold paramsFor
    rw [hparse]
  refine ⟨hparse, ?_, ?_, ?_⟩
  · rw [postComment_trace w context data text hr hp, calls_of_trace, hparams]
  · intro hc
    rw [postComment_result w context data text hr hp, hparams, hc, hparse]
  · intro e he
    rw [postComment_result w context data text hr hp, hparams] at he
    split at he
    · rename_i e2 he2
      cases he
      exact he2
    · cases he

/-- C8, at the number file content `abc` followed by a newline. -/
theorem C8_nan_passes_through_witness :
    (postComment (worldWithFiles (utf16 "error: foo\n") (utf16 "abc\n"))
      sampleContext).result = .ok .nan := by
  have hnd : ¬ ∃ (ws sgn : JSString) (d : Nat) (rest : JSString),
      utf16 "abc\n" = ws ++ sgn ++ d :: rest ∧ (∀ c ∈ ws, isWhiteSpace c = true) ∧
      (sgn = [] ∨ sgn = [43] ∨ sgn = [45]) ∧ 48 ≤ d ∧ d ≤ 57 := by
    rintro ⟨ws, sgn, d, rest, heq, hws, hsgn, hd1, hd2⟩
    have e : utf16 "abc\n" = [97, 98, 99, 10] := by decide
    rw [e] at heq
    cases ws with
    | cons c cs =>
      have hc : c = 97 := by
        have := congrArg List.head? heq
        simpa using this.symm
      have := hws c (List.mem_cons_self c cs)
      rw [hc] at this
      exact absurd this (by decide)
    | nil =>
      rcases hsgn with hs | hs | hs
      · subst hs
        have : d = 97 := by
          have := congrArg List.head? heq
          simpa using this.symm
        omega
      · subst hs
        have := congrArg List.head? heq
        simp at this
      · subst hs
        have := congrArg List.head? heq
        simp at this
  exact (C8_nan_passes_through (worldWithFiles (utf16 "error: foo\n") (utf16 "abc\n"))
    sampleContext (utf16 "error: foo\n") (utf16 "abc\n")
    (worldWithFiles_report _ _) (worldWithFiles_number _ _) hnd).2.2.1 rfl

end StubsClippy
